import Mathlib

/-!
Verification development for the slurm_mcp repository.

The Python sources are shallowly embedded: strings are modelled as `List Char`
(`Str`), Python integers as `Int`/`Nat`, fallible calls as `Option`/`Except`,
and the stateful managers as explicit state-passing functions.  Each embedded
definition mirrors one Python function of the repository; definitions marked
`Modelled from the spec:` correspond to repository code that is not present in
the source tree (only its tests and callers are) and follow the specification
text instead.
-/

namespace SlurmMcp

/-- Strings of the embedded program: Python `str` as a list of characters. -/
abbrev Str := List Char

/-- Coerce a Lean string literal into the model's string type. -/
def str (s : String) : Str := s.data

/-- Python's whitespace set for `str.strip()`/`str.split()`
(space, tab, newline, carriage return, vertical tab, form feed). -/
def pyIsSpace (c : Char) : Bool :=
  c = ' ' || c = '\t' || c = '\n' || c = '\r' || c = '\x0b' || c = '\x0c'

/-- Python `s.split(sep)` for a one-character separator `sep`
(`"".split(sep) == ['']`, separators at the ends produce empty fields). -/
def pySplitChar (sep : Char) : Str → List Str
  | [] => [[]]
  | c :: cs =>
    let r := pySplitChar sep cs
    if c = sep then [] :: r
    else
      match r with
      | [] => [[c]]
      | g :: gs => (c :: g) :: gs

/-- Python `s.lstrip()` (whitespace only). -/
def pyLStrip (l : Str) : Str := l.dropWhile pyIsSpace

/-- Python `s.strip()` (whitespace only). -/
def pyStrip (l : Str) : Str :=
  ((l.dropWhile pyIsSpace).reverse.dropWhile pyIsSpace).reverse

/-- Python `s.rstrip(c)` for a single character `c`. -/
def pyRStripChar (c : Char) (l : Str) : Str :=
  (l.reverse.dropWhile (· = c)).reverse

/-- Python `s.isdigit()` restricted to ASCII digits. -/
def pyIsdigit (l : Str) : Bool :=
  !l.isEmpty && l.all Char.isDigit

/-- Numeric value of a list of ASCII digits. -/
def natOfDigits (l : Str) : Nat :=
  l.foldl (fun n c => 10 * n + (c.toNat - '0'.toNat)) 0

/-- Python `int(s) if s.isdigit() else 0`, the repository's pervasive idiom
for parsing counter fields. -/
def pyDigitOr0 (l : Str) : Nat :=
  if pyIsdigit l then natOfDigits l else 0

/-- Recognizer for the tail of a Python `int()` digit part: digits with single
underscores allowed between digits. -/
def pyDigitRest : Str → Bool
  | [] => true
  | c :: cs =>
    if c = '_' then
      match cs with
      | [] => false
      | d :: _ => d.isDigit && pyDigitRest cs
    else c.isDigit && pyDigitRest cs

/-- Recognizer for a Python `int()` digit part (nonempty, starts with a digit). -/
def pyDigitPart : Str → Bool
  | [] => false
  | c :: cs => c.isDigit && pyDigitRest cs

/-- The value of a Python `int()` digit part (underscores dropped). -/
def pyIntVal (d : Str) : Int :=
  (natOfDigits (d.filter (· ≠ '_')) : Int)

/-- The sign-and-digits grammar of Python `int()` on an already stripped
string. -/
def pyIntCore : Str → Option Int
  | [] => none
  | c :: rest =>
    if c = '+' then if pyDigitPart rest then some (pyIntVal rest) else none
    else if c = '-' then if pyDigitPart rest then some (-(pyIntVal rest)) else none
    else if pyDigitPart (c :: rest) then some (pyIntVal (c :: rest)) else none

/-- Python `int(s)` returning `none` where CPython raises `ValueError`:
surrounding whitespace and a single sign are allowed, underscores may
separate digits. -/
def pyInt? (l : Str) : Option Int :=
  pyIntCore (pyStrip l)

/-- Python `needle in hay` substring membership on strings. -/
def substrIn (needle : Str) : Str → Bool
  | [] => needle.isEmpty
  | c :: cs => needle.isPrefixOf (c :: cs) || substrIn needle cs

/-- Python `s.lower()` (ASCII case folding). -/
def pyLower (l : Str) : Str := l.map Char.toLower

/-- Python `s.split()` with no argument: split on whitespace runs,
discarding empty fields. -/
def pyWords (l : Str) : List Str :=
  (l.splitOnP pyIsSpace).filter (fun w => !w.isEmpty)

end SlurmMcp

namespace SlurmMcp

/-! ## `slurm_commands._parse_gres` (GRES decoding) -/

/-- Embeds `models.GPUInfo` (the fields `_parse_gres` populates). -/
structure GPUInfo where
  gpu_type : Str
  count : Int
deriving DecidableEq, Repr

/-- The known GPU family keywords scanned for in feature tags
(`_parse_gres`, local `known_gpus`). -/
def known_gpus : List Str :=
  [str "h100", str "a100", str "v100", str "a10", str "l40", str "t4",
   str "a6000", str "rtx"]

/-- The feature-tag scan of `_parse_gres`: the first whitespace/comma token of
`features.lower()` that contains a known GPU family keyword. -/
def gpu_type_from_features (features : Str) : Option Str :=
  if features.isEmpty then none
  else
    (pyWords ((pyLower features).map fun c => if c = ',' then ' ' else c)).find?
      fun feat => known_gpus.any fun known => substrIn known feat

/-- How `_parse_gres` decodes one comma-separated segment, given the type
inferred from the feature tags (`gpu_type_from_features`). -/
def parseGresSegment (gtf : Option Str) (seg : Str) : List GPUInfo :=
  let part := pyStrip seg
  if !(str "gpu").isPrefixOf part then []
  else
    let base_part := (pySplitChar '(' part).headD []
    match pySplitChar ':' base_part with
    | [_, cnt] =>
      match pyInt? cnt with
      | some count => [⟨(gtf.getD (str "gpu")), count⟩]
      | none => []
    | _ :: gtype :: cnt :: _ =>
      match pyInt? cnt with
      | some count => [⟨gtype, count⟩]
      | none => []
    | _ => []

/-- Embeds `slurm_commands._parse_gres`: decode a GRES string (with the node's
feature string used for GPU-type inference on two-part segments). -/
def parse_gres (gres_str : Str) (features : Str := []) : List GPUInfo :=
  if gres_str.isEmpty || gres_str = str "(null)" || gres_str = str "N/A" then []
  else
    let gtf := gpu_type_from_features features
    ((pySplitChar ',' gres_str).map (parseGresSegment gtf)).flatten

/-! ## `slurm_commands.get_partitions` (partition listing parser) -/

/-- Embeds `models.PartitionInfo`. -/
structure PartitionInfo where
  name : Str
  state : Str
  total_nodes : Nat
  available_nodes : Nat
  total_cpus : Nat
  available_cpus : Nat
  max_time : Option Str
  is_default : Bool
  has_gpus : Bool
  gpu_types : List Str
  total_gpus : Int
  available_gpus : Int
deriving DecidableEq, Repr

/-- Embeds `slurm_commands._parse_slurm_time`: empty strings become absent, sentinel
values and everything else pass through unchanged. -/
def parse_slurm_time (time_str : Str) : Option Str :=
  if time_str.isEmpty ||
      time_str ∈ [str "UNLIMITED", str "INVALID", str "N/A", str "n/a"] then
    if time_str.isEmpty then none else some time_str
  else some time_str

/-- Python `s.endswith(c)` for a single character. -/
def pyEndsWithChar (c : Char) (l : Str) : Bool :=
  l.getLast? == some c

/-- One iteration of the `get_partitions` parsing loop: the per-row
`PartitionInfo` built from a pipe-delimited `sinfo` row (`none` for blank or
short rows, which the loop skips). -/
def parsePartitionRow (line : Str) : Option PartitionInfo :=
  if (pyStrip line).isEmpty then none
  else
    let parts := pySplitChar '|' line
    if parts.length < 7 then none
    else
      let p0 := parts.getD 0 []
      let cpu_parts := pySplitChar '/' (parts.getD 4 [])
      let gpus := parse_gres (parts.getD 5 []) (parts.getD 7 [])
      let node_parts := pySplitChar '/' (parts.getD 6 [])
      some
        { name := pyRStripChar '*' p0
          state := parts.getD 1 []
          total_nodes := pyDigitOr0 (parts.getD 3 [])
          available_nodes :=
            if node_parts.length = 4 then pyDigitOr0 (node_parts.getD 1 []) else 0
          total_cpus :=
            if cpu_parts.length = 4 then pyDigitOr0 (cpu_parts.getD 3 []) else 0
          available_cpus :=
            if cpu_parts.length = 4 then pyDigitOr0 (cpu_parts.getD 1 []) else 0
          max_time := parse_slurm_time (parts.getD 2 [])
          is_default := pyEndsWithChar '*' p0
          has_gpus := !gpus.isEmpty
          gpu_types := ((gpus.map (·.gpu_type)).filter (· ≠ str "gpu")).dedup
          total_gpus := (gpus.map (·.count)).sum
          available_gpus := 0 }

/-- The merge-on-duplicate-name branch of `get_partitions`: counters are
summed, GPU types are unioned (`list(set(..))` modelled as `dedup` of the
concatenation), `has_gpus` is or-ed; the remaining fields keep the values of
the first row. -/
def mergePartition (existing row : PartitionInfo) : PartitionInfo :=
  { existing with
    total_nodes := existing.total_nodes + row.total_nodes
    available_nodes := existing.available_nodes + row.available_nodes
    total_cpus := existing.total_cpus + row.total_cpus
    available_cpus := existing.available_cpus + row.available_cpus
    total_gpus := existing.total_gpus + row.total_gpus
    gpu_types :=
      if row.gpu_types.isEmpty then existing.gpu_types
      else (existing.gpu_types ++ row.gpu_types).dedup
    has_gpus := existing.has_gpus || row.has_gpus }

/-- The `partitions` dict of `get_partitions` as an insertion-ordered list
keyed by `name`: a duplicate name merges into the (unique) existing entry
for that name, a new name is appended. -/
def insertRow : List PartitionInfo → PartitionInfo → List PartitionInfo
  | [], row => [row]
  | e :: es, row =>
    if e.name = row.name then mergePartition e row :: es
    else e :: insertRow es row

/-- The per-row results of the `get_partitions` loop, in row order. -/
def parsePartitionRows (stdout : Str) : List PartitionInfo :=
  (pySplitChar '\n' (pyStrip stdout)).filterMap parsePartitionRow

/-- Embeds `slurm_commands.get_partitions` applied to the raw `sinfo` stdout of a
successful command: parse each row and merge rows sharing a partition name. -/
def get_partitions (stdout : Str) : List PartitionInfo :=
  (parsePartitionRows stdout).foldl insertRow []

/-- How one row updates the (possibly absent) accumulated entry of its
partition name: merge into an existing entry, or become the fresh entry. -/
def mergeStep (o : Option PartitionInfo) (r : PartitionInfo) :
    Option PartitionInfo :=
  match o with
  | some e => some (mergePartition e r)
  | none => some r

/-- The entry the merge fold associates to partition name `n`, given the
entry `acc0` already present for `n` and the remaining rows: all rows named
`n` are folded into the accumulated entry. -/
def mergedLookup (n : Str) (acc0 : Option PartitionInfo)
    (rows : List PartitionInfo) : Option PartitionInfo :=
  (rows.filter (fun r => r.name = n)).foldl mergeStep acc0

/-! ## `slurm_commands.sbatch` / `submit_job` -/

/-- Embeds `models.CommandResult`: outcome of one remote command execution. -/
structure CommandResult where
  stdout : Str
  stderr : Str
  return_code : Int
deriving DecidableEq, Repr

/-- Embeds the `CommandResult.success` property. -/
def CommandResult.success (r : CommandResult) : Bool :=
  r.return_code == 0

/-- Embeds `ssh_client.SSHCommandError`, carrying its message.  The specification's
error taxonomy calls the unparsable-submit-output case `AllocationError`; in
the code both raise sites use this one exception class, distinguished by
message. -/
inductive SlurmError where
  | sshCommandError (message : Str)
deriving DecidableEq, Repr

/-- The maximal leading digit run of a string (the greedy capture of a
regex digit group). -/
def digitsRun : Str → Str
  | [] => []
  | c :: cs => if c.isDigit then c :: digitsRun cs else []

/-- Match `Submitted batch job (\d+)` anchored at the start of `l`, returning
the captured id. -/
def matchSubmitAt (l : Str) : Option Nat :=
  if (str "Submitted batch job ").isPrefixOf l then
    let ds := digitsRun (l.drop (str "Submitted batch job ").length)
    if ds.isEmpty then none else some (natOfDigits ds)
  else none

/-- Embeds `re.search(r'Submitted batch job (\d+)', s)`: the leftmost match of the
success pattern, with its captured numeric id. -/
def findSubmitId : Str → Option Nat
  | [] => none
  | c :: cs =>
    match matchSubmitAt (c :: cs) with
    | some n => some n
    | none => findSubmitId cs

/-- Embeds `slurm_commands.SlurmCommands.sbatch` as a function of the `sbatch`
command's `CommandResult`: a failed command raises, a successful one returns
the id parsed from stdout or raises with the captured output. -/
def sbatch (result : CommandResult) : Except SlurmError Nat :=
  if !result.success then
    .error (.sshCommandError (str "sbatch failed: " ++ result.stderr))
  else
    match findSubmitId result.stdout with
    | some id => .ok id
    | none =>
      .error (.sshCommandError
        (str "Could not parse job ID from sbatch output: " ++ result.stdout))

/-- The remote side effects `submit_job` performs, in order. -/
inductive RemoteAction where
  | writeFile (path : Str)
  | runSbatch (path : Str)
  | deleteFile (path : Str)
deriving DecidableEq, Repr

/-- The remote outcomes a `submit_job` call can encounter: the script
transfer, the `sbatch` command's result, and the transient-script deletion. -/
structure SubmitEnv where
  writeResult : Except SlurmError Unit
  sbatchResult : CommandResult
  deleteResult : Except SlurmError Unit
deriving Repr

/-- Embeds `slurm_commands.SlurmCommands.submit_job`, with its remote-action trace:
write the rendered script to the transient path, run `sbatch` inside a
`try`, and in the `finally` block attempt to delete the script, swallowing
any deletion error. -/
def submit_job (env : SubmitEnv) (script_path : Str) :
    Except SlurmError Nat × List RemoteAction :=
  match env.writeResult with
  | .error e => (.error e, [.writeFile script_path])
  | .ok _ =>
    (sbatch env.sbatchResult,
     [.writeFile script_path, .runSbatch script_path, .deleteFile script_path])

/-! ## `slurm_commands.srun_command` / `srun_in_allocation` -/

/-- The configuration fields the srun/salloc/session paths read
(`config.ClusterConfig` / `config.Settings`); `container_mounts` holds the
result of `get_container_mounts()`. -/
structure Settings where
  interactive_partition : Str
  interactive_account : Option Str
  interactive_default_time : Str
  interactive_default_gpus : Int
  interactive_session_timeout : Int
  command_timeout : Int
  container_mounts : Str
deriving Repr

/-- Python truthiness of an `Optional[str]` (`None` and `""` are falsy). -/
def pyTruthyOptStr : Option Str → Bool
  | none => false
  | some s => !s.isEmpty

/-- Python `a or b` for an `Optional[str]` left operand and string result. -/
def pyOrStr (a : Option Str) (b : Str) : Str :=
  match a with
  | some s => if !s.isEmpty then s else b
  | none => b

/-- Python `a or b` for `Optional[str]` operands. -/
def pyOrOptStr (a b : Option Str) : Option Str :=
  if pyTruthyOptStr a then a else b

/-- Python `a or b` for an `Optional[int]` left operand (`None` and `0` are
falsy). -/
def pyOrInt (a : Option Int) (b : Int) : Int :=
  match a with
  | some v => if v ≠ 0 then v else b
  | none => b

/-- Embeds `slurm_commands._escape_for_single_quotes`:
`command.replace("'", "'\\''")`. -/
def escape_for_single_quotes (command : Str) : Str :=
  command.flatMap fun c =>
    if c = '\'' then ['\'', '\\', '\'', '\''] else [c]

/-- The shared tail of the two srun builders: optional container flags, the
working-directory `cd` prefix, and the single-quoted `bash -c` wrapper. -/
def srunCommandTail (settings : Settings) (cmd : Str) (command : Str)
    (container_image container_mounts : Option Str)
    (no_container_mount_home : Bool) (working_directory : Option Str) : Str :=
  let cmd :=
    if pyTruthyOptStr container_image then
      let cmd := cmd ++ str " --container-image=" ++ container_image.getD []
      let mounts := pyOrStr container_mounts settings.container_mounts
      let cmd :=
        if !mounts.isEmpty then cmd ++ str " --container-mounts=" ++ mounts
        else cmd
      if no_container_mount_home then cmd ++ str " --no-container-mount-home"
      else cmd
    else cmd
  let full_command :=
    if pyTruthyOptStr working_directory then
      str "cd " ++ working_directory.getD [] ++ str " && " ++ command
    else command
  cmd ++ str " bash -c " ++ ['\''] ++ escape_for_single_quotes full_command ++ ['\'']

/-- Embeds `slurm_commands.SlurmCommands.srun_command` (one-shot execution): the
shell command string and the timeout it passes to `ssh.execute`. -/
def srun_command (settings : Settings) (command : Str)
    (partition : Option Str := none) (account : Option Str := none)
    (nodes : Int := 1) (gpus_per_node : Option Int := none)
    (time_limit : Option Str := none) (container_image : Option Str := none)
    (container_mounts : Option Str := none)
    (no_container_mount_home : Bool := true)
    (working_directory : Option Str := none)
    (timeout : Option Int := none) : Str × Int :=
  let partition := pyOrStr partition settings.interactive_partition
  let account := pyOrOptStr account settings.interactive_account
  let time_limit := pyOrStr time_limit settings.interactive_default_time
  let gpus_per_node := gpus_per_node.getD settings.interactive_default_gpus
  let cmd := str "srun"
  let cmd := if pyTruthyOptStr account then cmd ++ str " -A " ++ account.getD [] else cmd
  let cmd := cmd ++ str " -p " ++ partition
  let cmd := cmd ++ str " -N " ++ str (toString nodes)
  let cmd := cmd ++ str " -t " ++ time_limit
  let cmd :=
    if gpus_per_node ≠ 0 then
      cmd ++ str " --gpus-per-node=" ++ str (toString gpus_per_node)
    else cmd
  let cmd := srunCommandTail settings cmd command container_image container_mounts
    no_container_mount_home working_directory
  let exec_timeout := pyOrInt timeout (max 300 settings.command_timeout)
  (cmd, exec_timeout)

/-- Embeds `slurm_commands.SlurmCommands.srun_in_allocation`: the shell command
string and the timeout it passes to `ssh.execute`. -/
def srun_in_allocation (settings : Settings) (job_id : Nat) (command : Str)
    (container_image : Option Str := none)
    (container_mounts : Option Str := none)
    (no_container_mount_home : Bool := true)
    (working_directory : Option Str := none)
    (timeout : Option Int := none) : Str × Int :=
  let cmd := str "srun --jobid=" ++ str (toString job_id)
  let cmd := srunCommandTail settings cmd command container_image container_mounts
    no_container_mount_home working_directory
  let exec_timeout := pyOrInt timeout (max 300 settings.command_timeout)
  (cmd, exec_timeout)

/-! ## `interactive.InteractiveSessionManager`

Times are modelled as integers (`datetime.now()` becomes the environment's
`now`, `timedelta.total_seconds()` an integer difference).  The scheduler
behind `slurm.get_job_details` / `slurm.scancel` is an explicit environment.
-/

/-- The fields of `models.JobInfo` that the session manager reads. -/
structure JobDetails where
  state : Str
  time_remaining : Option Str
  nodes : Option Str
deriving DecidableEq, Repr

/-- Embeds `models.InteractiveSession` (the fields the manager touches;
`last_command_time` defaults to `None` in the model, as in `models.py`). -/
structure InteractiveSession where
  session_id : Str
  job_id : Nat
  status : Str
  start_time : Int
  time_remaining : Option Str
  node_list : Option Str
  last_command_time : Option Int
deriving DecidableEq, Repr

/-- The external world of one session-manager call: the scheduler queries it
can make and the current time and configured idle timeout. -/
structure SessionEnv where
  job_details : Nat → Option JobDetails
  scancel : Nat → Bool
  now : Int
  session_timeout : Int

/-- The manager's `_sessions` dict as an insertion-ordered association list. -/
abbrev SessionTable := List (Str × InteractiveSession)

/-- Dict lookup `self._sessions[sid]` / `sid in self._sessions`. -/
def tableLookup (sid : Str) : SessionTable → Option InteractiveSession
  | [] => none
  | p :: ps => if p.1 = sid then some p.2 else tableLookup sid ps

/-- Dict deletion `del self._sessions[sid]`. -/
def tableRemove (sid : Str) : SessionTable → SessionTable
  | [] => []
  | p :: ps => if p.1 = sid then tableRemove sid ps else p :: tableRemove sid ps

/-- In-place mutation of the session stored under `sid`. -/
def tableUpdate (sid : Str) (f : InteractiveSession → InteractiveSession) :
    SessionTable → SessionTable
  | [] => []
  | p :: ps =>
    if p.1 = sid then (p.1, f p.2) :: tableUpdate sid f ps
    else p :: tableUpdate sid f ps

/-- Embeds `interactive.InteractiveSessionManager.start_session`: allocate via
`salloc` (no session is registered when it raises), look up the allocation's
node list, and register an `active` session; `session_sid` stands for the
freshly generated uuid.  `last_command_time` is not set here, so it keeps the
model default `None`. -/
def start_session (env : SessionEnv) (salloc_result : Except SlurmError Nat)
    (t : SessionTable) (session_sid : Str) :
    Except SlurmError (InteractiveSession × SessionTable) :=
  match salloc_result with
  | .error e => .error e
  | .ok job_id =>
    let node_list := (env.job_details job_id).bind (·.nodes)
    let session : InteractiveSession :=
      { session_id := session_sid
        job_id := job_id
        status := str "active"
        start_time := env.now
        time_remaining := none
        node_list := node_list
        last_command_time := none }
    .ok (session, t ++ [(session_sid, session)])

/-- The refreshed session `get_session` returns for a live allocation:
`time_remaining` is overwritten when the job query carries a truthy value. -/
def refreshSession (info : JobDetails) (s : InteractiveSession) : InteractiveSession :=
  if pyTruthyOptStr info.time_remaining then
    { s with time_remaining := info.time_remaining }
  else s

/-- Embeds `interactive.InteractiveSessionManager.get_session`: lazy reconciliation.
An unknown id returns `None`; a registered id queries the backing job, and a
missing or non-RUNNING/PENDING job marks the session ended and deletes it
(returning `None`); otherwise `time_remaining` is refreshed when available
and the live session returned. -/
def get_session (env : SessionEnv) (t : SessionTable) (sid : Str) :
    Option InteractiveSession × SessionTable :=
  match tableLookup sid t with
  | none => (none, t)
  | some session =>
    match env.job_details session.job_id with
    | none => (none, tableRemove sid t)
    | some info =>
      if info.state ≠ str "RUNNING" ∧ info.state ≠ str "PENDING" then
        (none, tableRemove sid t)
      else
        if pyTruthyOptStr info.time_remaining then
          let t' := tableUpdate sid (refreshSession info) t
          (tableLookup sid t', t')
        else
          (some session, t)

/-- Result of `end_session`: the returned boolean, the updated table, and the
job id a cancel command was issued against (if any). -/
structure EndResult where
  ok : Bool
  table : SessionTable
  cancelled : Option Nat
deriving Repr

/-- Embeds `interactive.InteractiveSessionManager.end_session`: an unknown id
returns `False` without cancelling; otherwise `scancel` the backing job,
remove the session unconditionally, and return the cancel's exit status. -/
def end_session (env : SessionEnv) (t : SessionTable) (sid : Str) : EndResult :=
  match tableLookup sid t with
  | none => ⟨false, t, none⟩
  | some session =>
    let success := env.scancel session.job_id
    ⟨success, tableRemove sid t, some session.job_id⟩

/-- One iteration of the `cleanup_stale_sessions` loop for the key `sid`. -/
def cleanupStep (env : SessionEnv) (acc : Nat × SessionTable) (sid : Str) :
    Nat × SessionTable :=
  match get_session env acc.2 sid with
  | (none, t') => (acc.1 + 1, t')
  | (some session, t') =>
    match session.last_command_time with
    | some lct =>
      if env.now - lct > env.session_timeout then
        (acc.1 + 1, (end_session env t' sid).table)
      else (acc.1, t')
    | none => (acc.1, t')

/-- Embeds `interactive.InteractiveSessionManager.cleanup_stale_sessions`: sweep the
snapshot of session ids, reconciling each via `get_session` and ending the
ones whose idle time exceeds the configured timeout; returns the number of
sessions cleaned and the resulting table. -/
def cleanup_stale_sessions (env : SessionEnv) (t : SessionTable) :
    Nat × SessionTable :=
  (t.map (·.1)).foldl (cleanupStep env) (0, t)

/-- The decision `cleanup_stale_sessions` reaches for one registered session:
`true` iff the session gets ended and counted — its backing job is gone or no
longer `RUNNING`/`PENDING`, or its recorded idle time exceeds the configured
timeout. -/
def sessionSwept (env : SessionEnv) (s : InteractiveSession) : Bool :=
  match env.job_details s.job_id with
  | none => true
  | some info =>
    if info.state ≠ str "RUNNING" ∧ info.state ≠ str "PENDING" then true
    else
      match s.last_command_time with
      | some lct => if env.now - lct > env.session_timeout then true else false
      | none => false

/-! ## `cluster_manager.ClusterManager.get_cluster_instances` and node
resolution

`config.ClusterConfig.get_ssh_host` and the `nodes` role map are referenced
by `cluster_manager.py` and exercised by `tests/test_multi_cluster.py`, but
their definition is not in the source tree (the `config.py` present is the
older single-host version), so they are modelled from the spec below.
-/

/-- Embeds `config.ClusterNodes`: the role map with the three configured roles. -/
structure ClusterNodes where
  login : List Str
  data : List Str
  vscode : List Str
deriving DecidableEq, Repr

/-- The hostname list of a role name (`none` for an unknown role). -/
def roleHosts (nodes : ClusterNodes) (role : Str) : Option (List Str) :=
  if role = str "login" then some nodes.login
  else if role = str "data" then some nodes.data
  else if role = str "vscode" then some nodes.vscode
  else none

/-- The cluster-configuration fields node resolution reads. -/
structure RouterConfig where
  nodes : ClusterNodes
  default_node_type : Str
  ssh_host : Option Str
deriving DecidableEq, Repr

/-- Every configured hostname of the cluster. -/
def allHosts (cfg : RouterConfig) : List Str :=
  cfg.nodes.login ++ cfg.nodes.data ++ cfg.nodes.vscode

/-- Unresolvable node specifier (`ValueError("Cannot determine SSH host")`,
the spec's `ConfigurationError`). -/
inductive ConfigError where
  | cannotDetermineHost (node : Option Str)
deriving DecidableEq, Repr

/-- Interpret a `role:index` specifier: the indexed hostname of the role, or
`none` when the specifier does not have that shape or the index is out of
range (resolution then falls through to the remaining rules). -/
def roleIndexHost (cfg : RouterConfig) (node : Str) : Option Str :=
  match pySplitChar ':' node with
  | [role, index] =>
    match pyInt? index with
    | some i =>
      if 0 ≤ i then
        (roleHosts cfg.nodes role).bind fun hosts => hosts.get? i.toNat
      else none
    | none => none
  | _ => none

/-- Modelled from the spec: `config.ClusterConfig.get_ssh_host`, which is
missing from the source tree.  Resolution precedence for an explicit
specifier: (1) a configured role with a nonempty hostname list resolves to
its first hostname; (2) a `role:index` specifier resolves to the indexed
hostname; (3) a specifier equal to a configured hostname resolves to itself;
(4) a specifier containing a domain separator (`.`) is a literal hostname;
otherwise a `ConfigurationError` is raised.  With no specifier, the default
node role's first hostname is used, falling back to the flat `ssh_host`
field. -/
def get_ssh_host (cfg : RouterConfig) (node : Option Str) : Except ConfigError Str :=
  match node with
  | none =>
    match roleHosts cfg.nodes cfg.default_node_type with
    | some (h :: _) => .ok h
    | _ =>
      match cfg.ssh_host with
      | some h => .ok h
      | none => .error (.cannotDetermineHost none)
  | some spec =>
    match roleHosts cfg.nodes spec with
    | some (h :: _) => .ok h
    | _ =>
      match roleIndexHost cfg spec with
      | some h => .ok h
      | none =>
        if spec ∈ allHosts cfg then .ok spec
        else if '.' ∈ spec then .ok spec
        else .error (.cannotDetermineHost (some spec))

/-- Embeds `cluster_manager.NodeConnection` (the transport object is left out; the
`connected` flag is what the router logic reads and writes). -/
structure NodeConnection where
  hostname : Str
  connected : Bool
deriving DecidableEq, Repr

/-- Embeds `cluster_manager.ClusterInstances`: the per-cluster runtime state. -/
structure ClusterInstances where
  node_connections : List (Str × NodeConnection)
  current_node : Option Str
deriving DecidableEq, Repr

/-- Embeds `cluster_manager.ClusterManager.get_cluster_instances` for one already
initialized cluster: resolve the hostname from the node specifier, create the
`NodeConnection` on first use, connect it if needed, and set the cluster's
`current_node` to the resolved hostname. -/
def get_cluster_instances (cfg : RouterConfig) (st : ClusterInstances)
    (node : Option Str) : Except ConfigError (Str × ClusterInstances) :=
  match get_ssh_host cfg node with
  | .error e => .error e
  | .ok hostname =>
    let conns :=
      if (st.node_connections.find? (fun p => p.1 = hostname)).isNone then
        st.node_connections ++ [(hostname, ⟨hostname, false⟩)]
      else st.node_connections
    let conns := conns.map fun p =>
      if p.1 = hostname then (p.1, { p.2 with connected := true }) else p
    .ok (hostname, { node_connections := conns, current_node := some hostname })

/-! ## Concrete instances used by the examples and witnesses -/

/-- The role map of the spec's resolution examples:
`{login: ["h1", "h2"], data: ["h3"], vscode: []}` with default role `login`. -/
def exampleRouterCfg : RouterConfig :=
  { nodes := { login := [str "h1", str "h2"], data := [str "h3"], vscode := [] }
    default_node_type := str "login"
    ssh_host := none }

/-- A configuration with the stock defaults (`command_timeout = 60`,
`interactive_session_timeout = 3600`). -/
def exampleSettings : Settings :=
  { interactive_partition := str "interactive"
    interactive_account := none
    interactive_default_time := str "4:00:00"
    interactive_default_gpus := 8
    interactive_session_timeout := 3600
    command_timeout := 60
    container_mounts := [] }

/-- A scheduler environment where every job is `RUNNING` and cancels
succeed. -/
def exampleEnv : SessionEnv :=
  { job_details := fun _ => some ⟨str "RUNNING", none, none⟩
    scancel := fun _ => true
    now := 10000
    session_timeout := 3600 }

/-- A registered session backed by job 42 with the given last-activity
time. -/
def exampleSession (lct : Option Int) : InteractiveSession :=
  { session_id := str "s1", job_id := 42, status := str "active",
    start_time := 0, time_remaining := none, node_list := none,
    last_command_time := lct }

/-- A submit environment whose script transfer and deletion succeed and whose
`sbatch` prints the standard success message. -/
def exampleSubmitEnv : SubmitEnv :=
  { writeResult := .ok ()
    sbatchResult := ⟨str "Submitted batch job 12345", [], 0⟩
    deleteResult := .ok () }

/-- The spec's merge example: two `sinfo` rows for partition `gpu` with cpu
groupings `4/6/0/10` and `2/8/0/10`. -/
def exampleSinfo : Str :=
  str "gpu|up|1:00:00|2|4/6/0/10|gpu:a100:4|1/1/0/2|\ngpu|up|1:00:00|3|2/8/0/10|gpu:v100:2|0/3/0/3|"

/-- The merged entry `get_partitions` produces for `exampleSinfo`. -/
def examplePartitionEntry : PartitionInfo :=
  { name := str "gpu", state := str "up", total_nodes := 5,
    available_nodes := 4, total_cpus := 20, available_cpus := 14,
    max_time := some (str "1:00:00"), is_default := false, has_gpus := true,
    gpu_types := [str "a100", str "v100"], total_gpus := 6,
    available_gpus := 0 }

end SlurmMcp

namespace SlurmMcp

/-! ## Lemmas about the Python string helpers -/

theorem dropWhile_eq_self_of_head {p : Char → Bool} {l : Str}
    (h : ∀ c, l.head? = some c → p c = false) : l.dropWhile p = l := by
  cases l with
  | nil => rfl
  | cons c cs => simp [List.dropWhile, h c rfl]

theorem pyStrip_eq_self_of_ends {l : Str}
    (h1 : ∀ c, l.head? = some c → pyIsSpace c = false)
    (h2 : ∀ c, l.getLast? = some c → pyIsSpace c = false) : pyStrip l = l := by
  unfold pyStrip
  rw [dropWhile_eq_self_of_head h1, dropWhile_eq_self_of_head, List.reverse_reverse]
  intro c hc
  rw [List.head?_reverse] at hc
  exact h2 c hc

theorem pyStrip_eq_self {l : Str} (h : ∀ c ∈ l, pyIsSpace c = false) :
    pyStrip l = l := by
  refine pyStrip_eq_self_of_ends (fun c hc => h c ?_) (fun c hc => h c ?_)
  · exact List.mem_of_mem_head? hc
  · exact List.mem_of_mem_getLast? hc

theorem ne_of_isDigit {c : Char} (x : Char) (h : c.isDigit = true)
    (hx : x.isDigit = false) : c ≠ x := by
  rintro rfl
  rw [h] at hx
  cases hx

theorem isDigit_not_space {c : Char} (h : c.isDigit = true) :
    pyIsSpace c = false := by
  by_contra hne
  rw [Bool.not_eq_false, pyIsSpace] at hne
  simp only [Bool.or_eq_true, decide_eq_true_eq] at hne
  rcases hne with ((((rfl | rfl) | rfl) | rfl) | rfl) | rfl <;> exact absurd h (by decide)

theorem pySplitChar_not_mem {sep : Char} : ∀ {l : Str}, sep ∉ l →
    pySplitChar sep l = [l]
  | [], _ => rfl
  | c :: cs, h => by
    have hc : ¬ c = sep := fun he => h (he ▸ List.mem_cons_self c cs)
    have ih := pySplitChar_not_mem (fun hm => h (List.mem_cons_of_mem _ hm))
    simp [pySplitChar, if_neg hc, ih]

theorem pySplitChar_append {sep : Char} (b : Str) : ∀ (a : Str), sep ∉ a →
    pySplitChar sep (a ++ sep :: b) = a :: pySplitChar sep b
  | [], _ => by simp [pySplitChar]
  | c :: cs, h => by
    have hc : ¬ c = sep := fun he => h (he ▸ List.mem_cons_self c cs)
    have ih := pySplitChar_append b cs (fun hm => h (List.mem_cons_of_mem _ hm))
    simp [pySplitChar, if_neg hc, ih]

theorem pyDigitRest_of_all : ∀ {l : Str}, (∀ c ∈ l, c.isDigit = true) →
    pyDigitRest l = true
  | [], _ => rfl
  | c :: cs, h => by
    have hc := h c (List.mem_cons_self c cs)
    have ih := pyDigitRest_of_all (fun d hd => h d (List.mem_cons_of_mem _ hd))
    have hne : ¬ c = '_' := ne_of_isDigit '_' hc (by decide)
    simp [pyDigitRest, hne, hc, ih]

theorem pyDigitPart_of_pyIsdigit {l : Str} (h : pyIsdigit l = true) :
    pyDigitPart l = true := by
  rcases l with _ | ⟨c, cs⟩
  · cases h
  · rw [pyIsdigit] at h
    simp only [List.isEmpty_cons, Bool.not_false, Bool.true_and, List.all_eq_true] at h
    simp [pyDigitPart, h c (List.mem_cons_self c cs),
      pyDigitRest_of_all (fun d hd => h d (List.mem_cons_of_mem _ hd))]

theorem all_isDigit_of_pyIsdigit {l : Str} (h : pyIsdigit l = true) :
    ∀ c ∈ l, c.isDigit = true := by
  rw [pyIsdigit, Bool.and_eq_true, List.all_eq_true] at h
  exact fun c hc => h.2 c hc

theorem pyInt?_of_pyIsdigit {l : Str} (h : pyIsdigit l = true) :
    pyInt? l = some (natOfDigits l : Int) := by
  have hall := all_isDigit_of_pyIsdigit h
  have hne : l ≠ [] := by
    rcases l with _ | _
    · cases h
    · exact List.cons_ne_nil _ _
  rcases l with _ | ⟨c, cs⟩
  · exact absurd rfl hne
  have hstrip : pyStrip (c :: cs) = c :: cs :=
    pyStrip_eq_self (fun d hd => isDigit_not_space (hall d hd))
  have hc := hall c (List.mem_cons_self c cs)
  have hfilter : (c :: cs).filter (· ≠ '_') = c :: cs :=
    List.filter_eq_self.mpr
      (fun d hd => decide_eq_true (ne_of_isDigit '_' (hall d hd) (by decide)))
  rw [pyInt?, hstrip, pyIntCore]
  rw [if_neg (ne_of_isDigit '+' hc (by decide)),
    if_neg (ne_of_isDigit '-' hc (by decide))]
  simp only [pyDigitPart_of_pyIsdigit h, if_true]
  rw [pyIntVal, hfilter]

end SlurmMcp

namespace SlurmMcp

/-! ## GRES segment decoding lemmas (C4) -/

theorem not_mem_of_all_isDigit {l : Str} (h : ∀ c ∈ l, c.isDigit = true)
    (x : Char) (hx : x.isDigit = false) : x ∉ l := by
  intro hm
  rw [h x hm] at hx
  cases hx

/-- On a segment of the shape `gpu:<type>:<count>` the stripped text is the
segment itself and the colon split yields the three components. -/
theorem gresSegment_shape {gtype cnt : Str} (hcol : ':' ∉ gtype)
    (hc : pyIsdigit cnt = true) :
    pyStrip ('g':: 'p':: 'u':: ':'::(gtype ++ ':' :: cnt))
        = 'g':: 'p':: 'u':: ':'::(gtype ++ ':' :: cnt) ∧
    pySplitChar ':' ('g':: 'p':: 'u':: ':'::(gtype ++ ':' :: cnt))
        = [['g','p','u'], gtype, cnt] := by
  have hall := all_isDigit_of_pyIsdigit hc
  have hcne : cnt ≠ [] := by
    rcases cnt with _ | _
    · exact absurd hc (by decide)
    · exact List.cons_ne_nil _ _
  constructor
  · refine pyStrip_eq_self_of_ends (fun c hch => ?_) (fun c hcl => ?_)
    · cases hch
      decide
    · have hlast : ('g':: 'p':: 'u':: ':'::(gtype ++ ':' :: cnt)).getLast?
          = cnt.getLast? := by
        have hsh : 'g':: 'p':: 'u':: ':'::(gtype ++ ':' :: cnt)
            = ('g':: 'p':: 'u':: ':'::(gtype ++ [':'])) ++ cnt := by simp
        rw [hsh, List.getLast?_append_of_ne_nil _ hcne]
      rw [hlast] at hcl
      exact isDigit_not_space (hall c (List.mem_of_mem_getLast? hcl))
  · have h1 : pySplitChar ':' ('g':: 'p':: 'u':: ':'::(gtype ++ ':' :: cnt))
        = ['g','p','u'] :: pySplitChar ':' (gtype ++ ':' :: cnt) := by
      exact pySplitChar_append _ ['g','p','u'] (by decide)
    rw [h1, pySplitChar_append _ gtype hcol,
      pySplitChar_not_mem (not_mem_of_all_isDigit hall ':' (by decide))]

theorem parseGresSegment_three (gtf : Option Str) {gtype cnt : Str}
    (hcol : ':' ∉ gtype) (hpar : '(' ∉ gtype) (hc : pyIsdigit cnt = true) :
    parseGresSegment gtf (str "gpu:" ++ gtype ++ ':' :: cnt)
      = [⟨gtype, (natOfDigits cnt : Int)⟩] := by
  have hall := all_isDigit_of_pyIsdigit hc
  have hshape : str "gpu:" ++ gtype ++ ':' :: cnt
      = 'g':: 'p':: 'u':: ':'::(gtype ++ ':' :: cnt) := rfl
  obtain ⟨hstrip, hsplit⟩ := gresSegment_shape hcol hc
  have hnopar : '(' ∉ ('g':: 'p':: 'u':: ':'::(gtype ++ ':' :: cnt)) := by
    simp only [List.mem_cons, List.mem_append, not_or]
    exact ⟨by decide, by decide, by decide, by decide, hpar, by decide,
      not_mem_of_all_isDigit hall '(' (by decide)⟩
  rw [hshape, parseGresSegment, hstrip]
  rw [if_neg (by rw [show (str "gpu").isPrefixOf ('g':: 'p':: 'u':: ':'::(gtype ++ ':' :: cnt)) = true from rfl]; decide),
    pySplitChar_not_mem hnopar]
  simp only [List.headD_cons]
  rw [hsplit]
  simp only [pyInt?_of_pyIsdigit hc]

theorem parseGresSegment_two (gtf : Option Str) {cnt : Str}
    (hc : pyIsdigit cnt = true) :
    parseGresSegment gtf (str "gpu:" ++ cnt)
      = [⟨gtf.getD (str "gpu"), (natOfDigits cnt : Int)⟩] := by
  have hall := all_isDigit_of_pyIsdigit hc
  have hcne : cnt ≠ [] := by
    rcases cnt with _ | _
    · exact absurd hc (by decide)
    · exact List.cons_ne_nil _ _
  have hshape : str "gpu:" ++ cnt = 'g':: 'p':: 'u':: ':'::cnt := rfl
  have hstrip : pyStrip ('g':: 'p':: 'u':: ':'::cnt) = 'g':: 'p':: 'u':: ':'::cnt := by
    refine pyStrip_eq_self_of_ends (fun c hch => ?_) (fun c hcl => ?_)
    · cases hch
      decide
    · have hlast : ('g':: 'p':: 'u':: ':'::cnt).getLast? = cnt.getLast? := by
        have hsh : 'g':: 'p':: 'u':: ':'::cnt = ['g','p','u',':'] ++ cnt := rfl
        rw [hsh, List.getLast?_append_of_ne_nil _ hcne]
      rw [hlast] at hcl
      exact isDigit_not_space (hall c (List.mem_of_mem_getLast? hcl))
  have hnopar : '(' ∉ ('g':: 'p':: 'u':: ':'::cnt) := by
    simp only [List.mem_cons, not_or]
    exact ⟨by decide, by decide, by decide, by decide,
      not_mem_of_all_isDigit hall '(' (by decide)⟩
  have hsplit : pySplitChar ':' ('g':: 'p':: 'u':: ':'::cnt)
      = [['g','p','u'], cnt] := by
    have h1 : pySplitChar ':' ('g':: 'p':: 'u':: ':'::cnt)
        = ['g','p','u'] :: pySplitChar ':' cnt := by
      exact pySplitChar_append _ ['g','p','u'] (by decide)
    rw [h1, pySplitChar_not_mem (not_mem_of_all_isDigit hall ':' (by decide))]
  rw [hshape, parseGresSegment, hstrip]
  rw [if_neg (by rw [show (str "gpu").isPrefixOf ('g':: 'p':: 'u':: ':'::cnt) = true from rfl]; decide),
    pySplitChar_not_mem hnopar]
  simp only [List.headD_cons]
  rw [hsplit]
  simp only [pyInt?_of_pyIsdigit hc]

theorem parseGresSegment_skip (gtf : Option Str) {gtype bad : Str}
    (hcol : ':' ∉ gtype) (hpar : '(' ∉ gtype)
    (hbcol : ':' ∉ bad) (hbpar : '(' ∉ bad)
    (hbsp : ∀ c ∈ bad, pyIsSpace c = false)
    (hbad : pyInt? bad = none) :
    parseGresSegment gtf (str "gpu:" ++ gtype ++ ':' :: bad) = [] := by
  have hshape : str "gpu:" ++ gtype ++ ':' :: bad
      = 'g':: 'p':: 'u':: ':'::(gtype ++ ':' :: bad) := rfl
  have hstrip : pyStrip ('g':: 'p':: 'u':: ':'::(gtype ++ ':' :: bad))
      = 'g':: 'p':: 'u':: ':'::(gtype ++ ':' :: bad) := by
    refine pyStrip_eq_self_of_ends (fun c hch => ?_) (fun c hcl => ?_)
    · cases hch
      decide
    · rcases bad with _ | ⟨b, bs⟩
      · have hlast : ('g':: 'p':: 'u':: ':'::(gtype ++ [':'])).getLast?
            = ([':'] : Str).getLast? := by
          have hsh : 'g':: 'p':: 'u':: ':'::(gtype ++ [':'])
              = ('g':: 'p':: 'u':: ':'::gtype) ++ [':'] := by simp
          rw [hsh, List.getLast?_append_of_ne_nil _ (by simp)]
        rw [hlast] at hcl
        cases hcl
        decide
      · have hlast : ('g':: 'p':: 'u':: ':'::(gtype ++ ':' :: b :: bs)).getLast?
            = (b :: bs).getLast? := by
          have hsh : 'g':: 'p':: 'u':: ':'::(gtype ++ ':' :: b :: bs)
              = ('g':: 'p':: 'u':: ':'::(gtype ++ [':'])) ++ (b :: bs) := by simp
          rw [hsh, List.getLast?_append_of_ne_nil _ (List.cons_ne_nil _ _)]
        rw [hlast] at hcl
        exact hbsp c (List.mem_of_mem_getLast? hcl)
  have hnopar : '(' ∉ ('g':: 'p':: 'u':: ':'::(gtype ++ ':' :: bad)) := by
    simp only [List.mem_cons, List.mem_append, not_or]
    exact ⟨by decide, by decide, by decide, by decide, hpar, by decide, hbpar⟩
  have hsplit : pySplitChar ':' ('g':: 'p':: 'u':: ':'::(gtype ++ ':' :: bad))
      = [['g','p','u'], gtype, bad] := by
    have h1 : pySplitChar ':' ('g':: 'p':: 'u':: ':'::(gtype ++ ':' :: bad))
        = ['g','p','u'] :: pySplitChar ':' (gtype ++ ':' :: bad) := by
      exact pySplitChar_append _ ['g','p','u'] (by decide)
    rw [h1, pySplitChar_append _ gtype hcol, pySplitChar_not_mem hbcol]
  rw [hshape, parseGresSegment, hstrip]
  rw [if_neg (by rw [show (str "gpu").isPrefixOf ('g':: 'p':: 'u':: ':'::(gtype ++ ':' :: bad)) = true from rfl]; decide),
    pySplitChar_not_mem hnopar]
  simp only [List.headD_cons]
  rw [hsplit]
  simp only [hbad]

end SlurmMcp

namespace SlurmMcp

/-! ## Claim theorems: GRES, submit, cleanup, timeout, routing -/

/-- C4: GRES decoding.  Per comma-separated segment, a three-part segment
`gpu:<type>:<count>` yields one record with the explicit type and count; a
two-part segment `gpu:<count>` yields one record whose type comes from the
feature-tag scan with the generic `"gpu"` placeholder as fallback; a segment
with a non-numeric count is skipped.  In particular `"gpu:a100:4"` gives one
`a100` record, `"gpu:8"` with feature tag `"H100"` gives `{h100, 8}`, and
`"gpu:a100:2,gpu:v100:4"` gives two records. -/
theorem claim_gres_decoding (gtf : Option Str) (gtype cnt bad : Str)
    (hcol : ':' ∉ gtype) (hpar : '(' ∉ gtype) (hc : pyIsdigit cnt = true)
    (hbcol : ':' ∉ bad) (hbpar : '(' ∉ bad)
    (hbsp : ∀ c ∈ bad, pyIsSpace c = false) (hbad : pyInt? bad = none) :
    parseGresSegment gtf (str "gpu:" ++ gtype ++ ':' :: cnt)
        = [⟨gtype, (natOfDigits cnt : Int)⟩] ∧
    parseGresSegment gtf (str "gpu:" ++ cnt)
        = [⟨gtf.getD (str "gpu"), (natOfDigits cnt : Int)⟩] ∧
    parseGresSegment gtf (str "gpu:" ++ gtype ++ ':' :: bad) = [] ∧
    parse_gres (str "gpu:a100:4") = [⟨str "a100", 4⟩] ∧
    parse_gres (str "gpu:8") (str "H100") = [⟨str "h100", 8⟩] ∧
    parse_gres (str "gpu:a100:2,gpu:v100:4")
        = [⟨str "a100", 2⟩, ⟨str "v100", 4⟩] :=
  ⟨parseGresSegment_three gtf hcol hpar hc, parseGresSegment_two gtf hc,
   parseGresSegment_skip gtf hcol hpar hbcol hbpar hbsp hbad,
   by decide, by decide, by decide⟩

/-- Witness for C4 at `type = "a100"`, `count = "4"`, bad count `"xx"`. -/
theorem claim_gres_decoding_witness :
    ':' ∉ str "a100" ∧ pyIsdigit (str "4") = true ∧ pyInt? (str "xx") = none ∧
    parseGresSegment none (str "gpu:" ++ str "a100" ++ ':' :: str "4")
      = [⟨str "a100", (natOfDigits (str "4") : Int)⟩] :=
  ⟨by decide, by decide, by decide,
   (claim_gres_decoding none (str "a100") (str "4") (str "xx") (by decide)
     (by decide) (by decide) (by decide) (by decide) (by decide) (by decide)).1⟩

/-- C5: submit id extraction.  On a successful `sbatch` command, a stdout
matching `Submitted batch job <id>` returns that id; a stdout without the
pattern raises the allocation error carrying the captured output and never
returns an id.  `"Submitted batch job 12345"` returns `12345`. -/
theorem claim_submit_id_extraction (res : CommandResult)
    (h : res.success = true) :
    (∀ n, findSubmitId res.stdout = some n → sbatch res = .ok n) ∧
    (findSubmitId res.stdout = none →
      sbatch res = .error (.sshCommandError
        (str "Could not parse job ID from sbatch output: " ++ res.stdout)) ∧
      ∀ n, sbatch res ≠ .ok n) ∧
    sbatch ⟨str "Submitted batch job 12345", [], 0⟩ = .ok 12345 := by
  refine ⟨fun n hn => ?_, fun hn => ⟨?_, fun n hok => ?_⟩, rfl⟩
  · simp [sbatch, h, hn]
  · simp [sbatch, h, hn]
  · simp [sbatch, h, hn] at hok

/-- Witness for C5 at the spec's example output. -/
theorem claim_submit_id_extraction_witness :
    (⟨str "Submitted batch job 12345", [], 0⟩ : CommandResult).success = true ∧
    findSubmitId (str "Submitted batch job 12345") = some 12345 ∧
    sbatch ⟨str "Submitted batch job 12345", [], 0⟩ = .ok 12345 :=
  ⟨by decide, by decide,
   (claim_submit_id_extraction ⟨str "Submitted batch job 12345", [], 0⟩
     (by decide)).1 12345 (by decide)⟩

/-- C9: transient submit script cleanup.  Once the script transfer succeeded,
`submit_job` attempts the transient script deletion whatever `sbatch`'s
outcome: the deletion action is always in the trace, the call's result is
exactly `sbatch`'s result, and a failing deletion changes nothing. -/
theorem claim_submit_script_cleanup (env : SubmitEnv) (path : Str)
    (h : env.writeResult = .ok ()) :
    RemoteAction.deleteFile path ∈ (submit_job env path).2 ∧
    (submit_job env path).1 = sbatch env.sbatchResult ∧
    ∀ d : Except SlurmError Unit,
      submit_job { env with deleteResult := d } path = submit_job env path := by
  refine ⟨?_, ?_, fun d => ?_⟩ <;> simp [submit_job, h]

/-- Witness for C9 on an environment whose transfer succeeds. -/
theorem claim_submit_script_cleanup_witness :
    exampleSubmitEnv.writeResult = .ok () ∧
    RemoteAction.deleteFile (str "/tmp/s.sh")
      ∈ (submit_job exampleSubmitEnv (str "/tmp/s.sh")).2 :=
  ⟨rfl, (claim_submit_script_cleanup exampleSubmitEnv (str "/tmp/s.sh") rfl).1⟩

/-- C6 counterexample: the claim says the timeout passed to the remote
execute call is never below the 300-second floor regardless of a
caller-supplied timeout, but `srun_in_allocation` with a caller-supplied
timeout of 1 second passes exactly 1. -/
theorem srun_timeout_floor_counterexample :
    (srun_in_allocation exampleSettings 7 (str "ls") none none true none
      (some 1)).2 = 1 ∧
    (srun_command exampleSettings (str "ls") none none 1 none none none none
      true none (some 1)).2 = 1 ∧
    max 300 exampleSettings.command_timeout = 300 ∧ (1 : Int) < 300 := by
  refine ⟨rfl, rfl, by decide, by decide⟩

/-- C6 amended: the 300-second floor over the configured command timeout is
applied only when the caller supplies no timeout (or the falsy `0`); a
caller-supplied nonzero timeout is passed through to the remote execute call
unchanged, for both `srun_in_allocation` and `srun_command`. -/
theorem claim_timeout_floor_amended (settings : Settings) (job_id : Nat)
    (command : Str) (ci cm wd : Option Str) (nh : Bool) (timeout : Option Int)
    (hto : timeout = none ∨ timeout = some 0) :
    ((srun_in_allocation settings job_id command ci cm nh wd timeout).2
        = max 300 settings.command_timeout ∧
      300 ≤ (srun_in_allocation settings job_id command ci cm nh wd timeout).2 ∧
      (srun_command settings command none none 1 none none ci cm nh wd
        timeout).2 = max 300 settings.command_timeout) ∧
    ∀ t : Int, t ≠ 0 →
      (srun_in_allocation settings job_id command ci cm nh wd (some t)).2 = t ∧
      (srun_command settings command none none 1 none none ci cm nh wd
        (some t)).2 = t := by
  constructor
  · rcases hto with rfl | rfl <;>
      refine ⟨rfl, le_max_left _ _, rfl⟩
  · intro t ht
    exact ⟨by simp [srun_in_allocation, pyOrInt, ht],
      by simp [srun_command, pyOrInt, ht]⟩

/-- Witness for the amended C6 with no caller timeout. -/
theorem claim_timeout_floor_amended_witness :
    (srun_in_allocation exampleSettings 7 (str "ls") none none true none
      none).2 = max 300 exampleSettings.command_timeout :=
  ((claim_timeout_floor_amended exampleSettings 7 (str "ls") none none none
    true none (Or.inl rfl)).1).1

end SlurmMcp

namespace SlurmMcp

/-! ## Session-table lemmas -/

theorem tableLookup_nil (sid : Str) : tableLookup sid [] = none := rfl

theorem tableLookup_tableRemove_self (sid : Str) (t : SessionTable) :
    tableLookup sid (tableRemove sid t) = none := by
  induction t with
  | nil => rfl
  | cons p ps ih =>
    by_cases hp : p.1 = sid
    · simpa [tableRemove, hp] using ih
    · simpa [tableRemove, tableLookup, hp] using ih

theorem tableLookup_tableRemove_ne {sid sid' : Str} (h : sid' ≠ sid)
    (t : SessionTable) :
    tableLookup sid' (tableRemove sid t) = tableLookup sid' t := by
  induction t with
  | nil => rfl
  | cons p ps ih =>
    by_cases hp : p.1 = sid
    · have hp' : ¬ p.1 = sid' := fun he => h (he ▸ hp)
      simpa [tableRemove, tableLookup, hp, hp', Ne.symm h] using ih
    · by_cases hq : p.1 = sid'
      · simp [tableRemove, tableLookup, hp, hq, h]
      · simpa [tableRemove, tableLookup, hp, hq] using ih

theorem tableLookup_tableUpdate_self (sid : Str)
    (f : InteractiveSession → InteractiveSession) (t : SessionTable) :
    tableLookup sid (tableUpdate sid f t) = (tableLookup sid t).map f := by
  induction t with
  | nil => rfl
  | cons p ps ih =>
    by_cases hp : p.1 = sid
    · simp [tableUpdate, tableLookup, hp]
    · simpa [tableUpdate, tableLookup, hp] using ih

theorem tableLookup_tableUpdate_ne {sid sid' : Str} (h : sid' ≠ sid)
    (f : InteractiveSession → InteractiveSession) (t : SessionTable) :
    tableLookup sid' (tableUpdate sid f t) = tableLookup sid' t := by
  induction t with
  | nil => rfl
  | cons p ps ih =>
    by_cases hp : p.1 = sid
    · have hp' : ¬ p.1 = sid' := fun he => h (he ▸ hp)
      simpa [tableUpdate, tableLookup, hp, hp', Ne.symm h] using ih
    · by_cases hq : p.1 = sid'
      · simp [tableUpdate, tableLookup, hp, hq, h]
      · simpa [tableUpdate, tableLookup, hp, hq] using ih

theorem tableLookup_isSome_of_mem_keys {k : Str} :
    ∀ {t : SessionTable}, k ∈ t.map (·.1) → (tableLookup k t).isSome = true := by
  intro t
  induction t with
  | nil => intro h; cases h
  | cons p ps ih =>
    intro hk
    by_cases hp : p.1 = k
    · simp [tableLookup, hp]
    · rcases List.mem_cons.mp hk with he | hm
      · exact absurd he.symm hp
      · simpa [tableLookup, hp] using ih hm

/-! ## `get_session` / `cleanup_stale_sessions` step lemmas -/

theorem refreshSession_last_command_time (info : JobDetails)
    (s : InteractiveSession) :
    (refreshSession info s).last_command_time = s.last_command_time := by
  unfold refreshSession
  split <;> rfl

theorem get_session_unknown (env : SessionEnv) (t : SessionTable) (sid : Str)
    (h : tableLookup sid t = none) : get_session env t sid = (none, t) := by
  simp [get_session, h]

theorem get_session_dead_job (env : SessionEnv) (t : SessionTable) (sid : Str)
    (s : InteractiveSession) (hs : tableLookup sid t = some s)
    (hj : env.job_details s.job_id = none) :
    get_session env t sid = (none, tableRemove sid t) := by
  simp [get_session, hs, hj]

theorem get_session_ended_job (env : SessionEnv) (t : SessionTable) (sid : Str)
    (s : InteractiveSession) (info : JobDetails)
    (hs : tableLookup sid t = some s)
    (hj : env.job_details s.job_id = some info)
    (hc : info.state ≠ str "RUNNING" ∧ info.state ≠ str "PENDING") :
    get_session env t sid = (none, tableRemove sid t) := by
  simp [get_session, hs, hj, hc]

theorem get_session_live (env : SessionEnv) (t : SessionTable) (sid : Str)
    (s : InteractiveSession) (info : JobDetails)
    (hs : tableLookup sid t = some s)
    (hj : env.job_details s.job_id = some info)
    (hc : ¬(info.state ≠ str "RUNNING" ∧ info.state ≠ str "PENDING")) :
    get_session env t sid
      = (some (refreshSession info s),
         if pyTruthyOptStr info.time_remaining then
           tableUpdate sid (refreshSession info) t
         else t) := by
  by_cases htr : pyTruthyOptStr info.time_remaining = true
  · simp [get_session, hs, hj, hc, htr, refreshSession,
      tableLookup_tableUpdate_self]
  · rw [Bool.not_eq_true] at htr
    simp [get_session, hs, hj, hc, htr, refreshSession]

theorem get_session_snd_frame (env : SessionEnv) (t : SessionTable)
    {k sid : Str} (h : sid ≠ k) :
    tableLookup sid (get_session env t k).2 = tableLookup sid t := by
  rcases hk : tableLookup k t with _ | s
  · rw [get_session_unknown env t k hk]
  · rcases hj : env.job_details s.job_id with _ | info
    · rw [get_session_dead_job env t k s hk hj]
      exact tableLookup_tableRemove_ne h t
    · by_cases hc : info.state ≠ str "RUNNING" ∧ info.state ≠ str "PENDING"
      · rw [get_session_ended_job env t k s info hk hj hc]
        exact tableLookup_tableRemove_ne h t
      · rw [get_session_live env t k s info hk hj hc]
        by_cases htr : pyTruthyOptStr info.time_remaining = true
        · simp only [htr, if_true]
          exact tableLookup_tableUpdate_ne h _ t
        · rw [Bool.not_eq_true] at htr
          simp [htr]

theorem end_session_table_frame (env : SessionEnv) (t : SessionTable)
    {k sid : Str} (h : sid ≠ k) :
    tableLookup sid (end_session env t k).table = tableLookup sid t := by
  rcases hk : tableLookup k t with _ | s <;> simp [end_session, hk]
  exact tableLookup_tableRemove_ne h t

theorem cleanupStep_frame (env : SessionEnv) (acc : Nat × SessionTable)
    {k sid : Str} (h : sid ≠ k) :
    tableLookup sid (cleanupStep env acc k).2 = tableLookup sid acc.2 := by
  unfold cleanupStep
  rcases hg : get_session env acc.2 k with ⟨os, t'⟩
  have hframe : tableLookup sid t' = tableLookup sid acc.2 := by
    have := get_session_snd_frame env acc.2 h
    rw [hg] at this
    exact this
  rcases os with _ | session
  · simpa using hframe
  · rcases hl : session.last_command_time with _ | lct <;> simp only [hl]
    · simpa using hframe
    · by_cases hi : env.now - lct > env.session_timeout
      · simp only [hi, if_true]
        rw [end_session_table_frame env t' h, hframe]
      · simpa [hi] using hframe

theorem cleanupStep_swept (env : SessionEnv) (c : Nat) (t : SessionTable)
    (sid : Str) (s : InteractiveSession)
    (hs : tableLookup sid t = some s) (hw : sessionSwept env s = true) :
    (cleanupStep env (c, t) sid).1 = c + 1 ∧
    tableLookup sid (cleanupStep env (c, t) sid).2 = none := by
  unfold sessionSwept at hw
  rcases hj : env.job_details s.job_id with _ | info
  · rw [cleanupStep, get_session_dead_job env t sid s hs hj]
    exact ⟨rfl, tableLookup_tableRemove_self sid t⟩
  · rw [hj] at hw
    simp only [] at hw
    by_cases hc : info.state ≠ str "RUNNING" ∧ info.state ≠ str "PENDING"
    · rw [cleanupStep, get_session_ended_job env t sid s info hs hj hc]
      exact ⟨rfl, tableLookup_tableRemove_self sid t⟩
    · rw [if_neg hc] at hw
      rcases hlct : s.last_command_time with _ | lct
      · rw [hlct] at hw
        simp only [] at hw
        exact absurd hw (by decide)
      · rw [hlct] at hw
        simp only [] at hw
        have hidle : env.now - lct > env.session_timeout := by
          by_contra hn
          rw [if_neg hn] at hw
          cases hw
        rw [cleanupStep, get_session_live env t sid s info hs hj hc]
        simp only [refreshSession_last_command_time, hlct, hidle, if_true]
        refine ⟨by simp, ?_⟩
        by_cases htr : pyTruthyOptStr info.time_remaining = true
        · have hlook : tableLookup sid (tableUpdate sid (refreshSession info) t)
              = some (refreshSession info s) := by
            rw [tableLookup_tableUpdate_self, hs]
            rfl
          simp only [htr, if_true, end_session, hlook,
            tableLookup_tableRemove_self]
        · rw [Bool.not_eq_true] at htr
          simp only [htr, Bool.false_eq_true, if_false, end_session, hs,
            tableLookup_tableRemove_self]

theorem cleanupStep_kept (env : SessionEnv) (c : Nat) (t : SessionTable)
    (sid : Str) (s : InteractiveSession)
    (hs : tableLookup sid t = some s) (hw : sessionSwept env s = false) :
    (cleanupStep env (c, t) sid).1 = c ∧
    ∃ s', tableLookup sid (cleanupStep env (c, t) sid).2 = some s' ∧
      s'.last_command_time = s.last_command_time := by
  unfold sessionSwept at hw
  rcases hj : env.job_details s.job_id with _ | info
  · rw [hj] at hw
    simp only [] at hw
    exact absurd hw (by decide)
  · rw [hj] at hw
    simp only [] at hw
    by_cases hc : info.state ≠ str "RUNNING" ∧ info.state ≠ str "PENDING"
    · rw [if_pos hc] at hw
      cases hw
    · rw [if_neg hc] at hw
      have hlook : tableLookup sid
          (if pyTruthyOptStr info.time_remaining then
            tableUpdate sid (refreshSession info) t
          else t) = some (refreshSession info s) := by
        by_cases htr : pyTruthyOptStr info.time_remaining = true
        · rw [if_pos htr, tableLookup_tableUpdate_self, hs]
          rfl
        · rw [Bool.not_eq_true] at htr
          rw [htr]
          simp only [Bool.false_eq_true, if_false, hs]
          rw [refreshSession, htr]
          simp
      rcases hlct : s.last_command_time with _ | lct
      · rw [cleanupStep, get_session_live env t sid s info hs hj hc]
        simp only [refreshSession_last_command_time, hlct]
        exact ⟨by simp, refreshSession info s, hlook,
          by rw [refreshSession_last_command_time, hlct]⟩
      · rw [hlct] at hw
        simp only [] at hw
        have hidle : ¬ env.now - lct > env.session_timeout := by
          by_contra hn
          rw [if_pos hn] at hw
          cases hw
        rw [cleanupStep, get_session_live env t sid s info hs hj hc]
        simp only [refreshSession_last_command_time, hlct, hidle, if_false]
        exact ⟨by simp, refreshSession info s, hlook,
          by rw [refreshSession_last_command_time, hlct]⟩

theorem mem_keys_of_tableLookup {sid : Str} :
    ∀ {t : SessionTable} {s : InteractiveSession},
      tableLookup sid t = some s → sid ∈ t.map (·.1) := by
  intro t
  induction t with
  | nil => intro s hs; cases hs
  | cons p ps ih =>
    intro s hs
    by_cases hp : p.1 = sid
    · exact List.mem_cons.mpr (Or.inl hp.symm)
    · rw [tableLookup, if_neg hp] at hs
      exact List.mem_cons_of_mem _ (ih hs)

theorem cleanupStep_unknown (env : SessionEnv) (c : Nat) (t : SessionTable)
    (k : Str) (h : tableLookup k t = none) :
    cleanupStep env (c, t) k = (c + 1, t) := by
  rw [cleanupStep, get_session_unknown env t k h]

/-- One sweep iteration, relative to the table the iteration started from:
the counter grows by the swept-decision of the key's session (a vanished key
also counts), a swept session's key is gone afterwards, a kept session stays
with its last-activity time unchanged. -/
theorem cleanupStep_spec (env : SessionEnv) (c : Nat) (tcur t0 : SessionTable)
    (k : Str) (hlk : tableLookup k tcur = tableLookup k t0) :
    ((cleanupStep env (c, tcur) k).1
      = c + (if (match tableLookup k t0 with
          | some s => sessionSwept env s
          | none => true) = true then 1 else 0)) ∧
    ∀ s, tableLookup k t0 = some s →
      (sessionSwept env s = true →
        tableLookup k (cleanupStep env (c, tcur) k).2 = none) ∧
      (sessionSwept env s = false →
        ∃ s', tableLookup k (cleanupStep env (c, tcur) k).2 = some s' ∧
          s'.last_command_time = s.last_command_time) := by
  rcases h0 : tableLookup k t0 with _ | s
  · rw [h0] at hlk
    rw [cleanupStep_unknown env c tcur k hlk]
    exact ⟨by simp, fun s hs => by cases hs⟩
  · rw [h0] at hlk
    by_cases hw : sessionSwept env s = true
    · obtain ⟨h1, h2⟩ := cleanupStep_swept env c tcur k s hlk hw
      refine ⟨by rw [h1]; simp [hw], fun s' hs' => ?_⟩
      injection hs' with he
      subst he
      exact ⟨fun _ => h2, fun hf => by rw [hw] at hf; cases hf⟩
    · rw [Bool.not_eq_true] at hw
      obtain ⟨h1, s', h2, h3⟩ := cleanupStep_kept env c tcur k s hlk hw
      refine ⟨by rw [h1]; simp [hw], fun s'' hs'' => ?_⟩
      injection hs'' with he
      subst he
      exact ⟨(fun ht => by rw [hw] at ht; cases ht), fun _ => ⟨s', h2, h3⟩⟩

theorem cleanup_foldl_frame (env : SessionEnv) :
    ∀ (ks : List Str) {sid : Str}, sid ∉ ks → ∀ acc : Nat × SessionTable,
      tableLookup sid (ks.foldl (cleanupStep env) acc).2 = tableLookup sid acc.2
  | [], _, _, _ => rfl
  | k :: ks, sid, h, acc => by
    have h1 : sid ≠ k := fun he => h (he ▸ List.mem_cons_self k ks)
    have h2 : sid ∉ ks := fun hm => h (List.mem_cons_of_mem _ hm)
    rw [List.foldl_cons, cleanup_foldl_frame env ks h2 _,
      cleanupStep_frame env acc h1]

/-- The sweep fold over a duplicate-free key snapshot, relative to the table
`t0` the snapshot was taken from: the counter counts exactly the keys whose
session is swept, swept keys are absent from the final table, kept keys stay
with their last-activity time unchanged. -/
theorem cleanup_foldl_spec (env : SessionEnv) (ks : List Str) :
    ∀ (c : Nat) (tcur t0 : SessionTable), ks.Nodup →
      (∀ k ∈ ks, tableLookup k tcur = tableLookup k t0) →
      ((ks.foldl (cleanupStep env) (c, tcur)).1
        = c + ks.countP (fun k =>
            match tableLookup k t0 with
            | some s => sessionSwept env s
            | none => true)) ∧
      (∀ sid ∈ ks, ∀ s, tableLookup sid t0 = some s →
        (sessionSwept env s = true →
          tableLookup sid (ks.foldl (cleanupStep env) (c, tcur)).2 = none) ∧
        (sessionSwept env s = false →
          ∃ s', tableLookup sid (ks.foldl (cleanupStep env) (c, tcur)).2
              = some s' ∧
            s'.last_command_time = s.last_command_time)) := by
  induction ks with
  | nil =>
    intro c tcur t0 _ _
    exact ⟨by simp, fun sid h => absurd h (List.not_mem_nil sid)⟩
  | cons k ks ih =>
    intro c tcur t0 hnd hinv
    obtain ⟨hkmem, hnd'⟩ := List.nodup_cons.mp hnd
    have hlk := hinv k (List.mem_cons_self k ks)
    obtain ⟨hs1, hs2⟩ := cleanupStep_spec env c tcur t0 k hlk
    have hinv' : ∀ k' ∈ ks,
        tableLookup k' (cleanupStep env (c, tcur) k).2 = tableLookup k' t0 := by
      intro k' hk'
      have hne : k' ≠ k := fun he => hkmem (he ▸ hk')
      rw [cleanupStep_frame env (c, tcur) hne]
      exact hinv k' (List.mem_cons_of_mem _ hk')
    obtain ⟨ih1, ih2⟩ := ih (cleanupStep env (c, tcur) k).1
      (cleanupStep env (c, tcur) k).2 t0 hnd' hinv'
    rw [List.foldl_cons]
    constructor
    · rw [ih1, hs1, List.countP_cons]
      omega
    · intro sid hsidmem s hs
      rcases List.mem_cons.mp hsidmem with rfl | hm
      · have hfr := cleanup_foldl_frame env ks hkmem (cleanupStep env (c, tcur) sid)
        obtain ⟨hsw, hke⟩ := hs2 s hs
        refine ⟨fun hw => ?_, fun hw => ?_⟩
        · rw [hfr]
          exact hsw hw
        · obtain ⟨s', h2', h3'⟩ := hke hw
          exact ⟨s', by rw [hfr]; exact h2', h3'⟩
      · exact ih2 sid hm s hs

end SlurmMcp

namespace SlurmMcp

/-! ## Claim theorems: cluster routing and session lifecycle -/

/-- C1 (failing behaviour, matching `tests/test_multi_cluster.py::
test_current_node_preserved_when_no_node_specified`): after an explicit
resolution of node `"data"` has selected `"h3"` and recorded it as the
cluster's current node, an unqualified resolution re-resolves through the
default role, returning `"h1"` and overwriting the recorded current node —
the preservation the claim (and the repository's own test) requires does not
hold in `get_cluster_instances`. -/
theorem current_node_not_preserved_on_unqualified_call :
    ∃ st1 : ClusterInstances,
      get_cluster_instances exampleRouterCfg ⟨[], none⟩ (some (str "data"))
        = .ok (str "h3", st1) ∧
      st1.current_node = some (str "h3") ∧
      ∃ st2 : ClusterInstances,
        get_cluster_instances exampleRouterCfg st1 none = .ok (str "h1", st2) ∧
        st2.current_node = some (str "h1") ∧
        st2.current_node ≠ some (str "h3") := by
  refine ⟨⟨[(str "h3", ⟨str "h3", true⟩)], some (str "h3")⟩, rfl, rfl,
    ⟨[(str "h3", ⟨str "h3", true⟩), (str "h1", ⟨str "h1", true⟩)],
      some (str "h1")⟩, rfl, rfl, by decide⟩

/-- C2: node resolution precedence of the (spec-modelled) `get_ssh_host`:
(1) a specifier naming a configured role with hosts resolves to the role's
first hostname; otherwise (2) a valid `role:index` specifier resolves to the
indexed hostname; otherwise (3) a specifier matching a configured hostname
resolves to itself; otherwise (4) a specifier containing a domain separator
resolves to itself; otherwise resolution raises `ConfigurationError`.  On
roles `{login: [h1, h2], data: [h3]}`: `"login:1" → h2`, `"data" → h3`, and
the unconfigured empty role `"vscode"` raises. -/
theorem claim_node_resolution_precedence (cfg : RouterConfig) (spec : Str) :
    (∀ h rest, roleHosts cfg.nodes spec = some (h :: rest) →
      get_ssh_host cfg (some spec) = .ok h) ∧
    ((roleHosts cfg.nodes spec = none ∨ roleHosts cfg.nodes spec = some []) →
      (∀ h, roleIndexHost cfg spec = some h →
        get_ssh_host cfg (some spec) = .ok h) ∧
      (roleIndexHost cfg spec = none →
        (spec ∈ allHosts cfg → get_ssh_host cfg (some spec) = .ok spec) ∧
        (spec ∉ allHosts cfg → '.' ∈ spec →
          get_ssh_host cfg (some spec) = .ok spec) ∧
        (spec ∉ allHosts cfg → '.' ∉ spec →
          get_ssh_host cfg (some spec)
            = .error (.cannotDetermineHost (some spec))))) ∧
    get_ssh_host exampleRouterCfg (some (str "login:1")) = .ok (str "h2") ∧
    get_ssh_host exampleRouterCfg (some (str "data")) = .ok (str "h3") ∧
    get_ssh_host exampleRouterCfg (some (str "vscode"))
      = .error (.cannotDetermineHost (some (str "vscode"))) := by
  refine ⟨fun h rest hr => ?_,
    fun hrole => ⟨fun h hidx => ?_,
      fun hidx => ⟨fun hmem => ?_, fun hmem hdot => ?_, fun hmem hdot => ?_⟩⟩,
    rfl, rfl, rfl⟩
  · simp [get_ssh_host, hr]
  · rcases hrole with hr | hr <;> simp [get_ssh_host, hr, hidx]
  · rcases hrole with hr | hr <;> simp [get_ssh_host, hr, hidx, hmem]
  · rcases hrole with hr | hr <;> simp [get_ssh_host, hr, hidx, hmem, hdot]
  · rcases hrole with hr | hr <;> simp [get_ssh_host, hr, hidx, hmem, hdot]

/-- Witness for C2: rule (1) on the example configuration's `"data"` role. -/
theorem claim_node_resolution_precedence_witness :
    roleHosts exampleRouterCfg.nodes (str "data") = some [str "h3"] ∧
    get_ssh_host exampleRouterCfg (some (str "data")) = .ok (str "h3") :=
  ⟨rfl, (claim_node_resolution_precedence exampleRouterCfg (str "data")).1
    (str "h3") [] rfl⟩

/-- C10: `end_session` on an unknown id returns `False` and issues no cancel;
on a registered id it issues the cancel against the backing job, removes the
session from the table unconditionally, and its boolean result is exactly
the cancel command's status (whatever it is). -/
theorem claim_end_session_semantics (env : SessionEnv) (t : SessionTable)
    (sid : Str) :
    (tableLookup sid t = none →
      end_session env t sid = ⟨false, t, none⟩) ∧
    ∀ s, tableLookup sid t = some s →
      (end_session env t sid).table = tableRemove sid t ∧
      tableLookup sid (end_session env t sid).table = none ∧
      (end_session env t sid).ok = env.scancel s.job_id ∧
      (end_session env t sid).cancelled = some s.job_id := by
  refine ⟨fun hnone => ?_, fun s hs => ?_⟩
  · simp [end_session, hnone]
  · refine ⟨?_, ?_, ?_, ?_⟩ <;>
      simp [end_session, hs, tableLookup_tableRemove_self]

/-- Witness for C10: ending the registered session `s1` cancels job 42 and
empties the table. -/
theorem claim_end_session_semantics_witness :
    tableLookup (str "s1") [(str "s1", exampleSession none)]
        = some (exampleSession none) ∧
    (end_session exampleEnv [(str "s1", exampleSession none)] (str "s1")).table
        = tableRemove (str "s1") [(str "s1", exampleSession none)] :=
  ⟨rfl, ((claim_end_session_semantics exampleEnv
    [(str "s1", exampleSession none)] (str "s1")).2
    (exampleSession none) rfl).1⟩

/-- C8: `get_session` reconciliation for a registered id: a missing backing
job, or one that is neither `RUNNING` nor `PENDING`, removes the session and
returns absent; a live job keeps the session registered, refreshes
`time_remaining` when the query carries one, and returns the live session. -/
theorem claim_lazy_session_reconciliation (env : SessionEnv)
    (t : SessionTable) (sid : Str) (s : InteractiveSession)
    (hs : tableLookup sid t = some s) :
    (env.job_details s.job_id = none →
      (get_session env t sid).1 = none ∧
      tableLookup sid (get_session env t sid).2 = none) ∧
    ∀ info, env.job_details s.job_id = some info →
      (info.state ≠ str "RUNNING" ∧ info.state ≠ str "PENDING" →
        (get_session env t sid).1 = none ∧
        tableLookup sid (get_session env t sid).2 = none) ∧
      ((info.state = str "RUNNING" ∨ info.state = str "PENDING") →
        (get_session env t sid).1 = some (refreshSession info s) ∧
        tableLookup sid (get_session env t sid).2
          = some (refreshSession info s)) := by
  refine ⟨fun hdead => ?_, fun info hinfo => ⟨fun hended => ?_, fun hlive => ?_⟩⟩
  · simp [get_session, hs, hdead, tableLookup_tableRemove_self]
  · simp [get_session, hs, hinfo, hended, tableLookup_tableRemove_self]
  · have hcond : ¬ (info.state ≠ str "RUNNING" ∧ info.state ≠ str "PENDING") := by
      rcases hlive with hl | hl <;> simp [hl]
    by_cases htr : pyTruthyOptStr info.time_remaining = true
    · simp [get_session, hs, hinfo, hcond, htr, refreshSession,
        tableLookup_tableUpdate_self]
    · rw [Bool.not_eq_true] at htr
      simp [get_session, hs, hinfo, hcond, htr, refreshSession]

/-- Witness for C8 on a running backing job. -/
theorem claim_lazy_session_reconciliation_witness :
    tableLookup (str "s1") [(str "s1", exampleSession none)]
        = some (exampleSession none) ∧
    exampleEnv.job_details 42 = some ⟨str "RUNNING", none, none⟩ ∧
    (get_session exampleEnv [(str "s1", exampleSession none)] (str "s1")).1
        = some (refreshSession ⟨str "RUNNING", none, none⟩
            (exampleSession none)) :=
  ⟨rfl, rfl, (((claim_lazy_session_reconciliation exampleEnv
      [(str "s1", exampleSession none)] (str "s1") (exampleSession none)
      rfl).2 ⟨str "RUNNING", none, none⟩ rfl).2 (Or.inl rfl)).1⟩

/-- C7 counterexample: the claim says a newly started session is registered
with `lastActivity = now`, but `start_session` registers the session with no
last-activity timestamp at all (`last_command_time = None`, the model
default), which in particular differs from `some now`. -/
theorem start_session_last_activity_counterexample :
    ∃ s t', start_session exampleEnv (.ok 42) [] (str "s1") = .ok (s, t') ∧
      tableLookup (str "s1") t' = some s ∧
      s.last_command_time = none ∧
      s.last_command_time ≠ some exampleEnv.now := by
  refine ⟨_, _, rfl, rfl, rfl, by decide⟩

/-- C7 amended: a newly started session is registered `active` with no
last-activity timestamp (not `now`); when `cleanup_stale_sessions` runs over
a duplicate-free table, every live session with a recorded last activity
whose idle time exceeds the configured timeout is removed, every live
session whose last activity equals `now` stays (for a nonnegative timeout)
with its last activity unchanged, and the returned count counts exactly the
swept sessions. -/
theorem claim_idle_timeout_sweep_amended (env : SessionEnv) (t : SessionTable)
    (hnd : (t.map (·.1)).Nodup) :
    (∀ jid t₀ sid,
      ∃ s t', start_session env (.ok jid) t₀ sid = .ok (s, t') ∧
        t' = t₀ ++ [(sid, s)] ∧ s.status = str "active" ∧
        s.last_command_time = none) ∧
    (∀ sid s info lct,
      tableLookup sid t = some s →
      env.job_details s.job_id = some info →
      (info.state = str "RUNNING" ∨ info.state = str "PENDING") →
      s.last_command_time = some lct →
      env.now - lct > env.session_timeout →
      tableLookup sid (cleanup_stale_sessions env t).2 = none) ∧
    (0 ≤ env.session_timeout →
      ∀ sid s info,
        tableLookup sid t = some s →
        env.job_details s.job_id = some info →
        (info.state = str "RUNNING" ∨ info.state = str "PENDING") →
        s.last_command_time = some env.now →
        ∃ s', tableLookup sid (cleanup_stale_sessions env t).2 = some s' ∧
          s'.last_command_time = some env.now) ∧
    (cleanup_stale_sessions env t).1
      = (t.map (·.1)).countP (fun k =>
          match tableLookup k t with
          | some s => sessionSwept env s
          | none => true) := by
  obtain ⟨hcount, hper⟩ :=
    cleanup_foldl_spec env (t.map (·.1)) 0 t t hnd (fun _ _ => rfl)
  have hlive_not : ∀ info : JobDetails,
      (info.state = str "RUNNING" ∨ info.state = str "PENDING") →
      ¬(info.state ≠ str "RUNNING" ∧ info.state ≠ str "PENDING") := by
    rintro info (hl | hl) ⟨h1, h2⟩
    · exact h1 hl
    · exact h2 hl
  refine ⟨fun jid t₀ sid => ⟨_, _, rfl, rfl, rfl, rfl⟩, ?_, ?_, ?_⟩
  · intro sid s info lct hs hj hlive hlct hidle
    have hw : sessionSwept env s = true := by
      rw [sessionSwept, hj]
      simp only []
      rw [if_neg (hlive_not info hlive), hlct]
      simp only []
      rw [if_pos hidle]
    exact ((hper sid (mem_keys_of_tableLookup hs) s hs).1) hw
  · intro h0 sid s info hs hj hlive hlct
    have hw : sessionSwept env s = false := by
      rw [sessionSwept, hj]
      simp only []
      rw [if_neg (hlive_not info hlive), hlct]
      simp only []
      rw [if_neg (by omega)]
    obtain ⟨s', h1, h2⟩ := ((hper sid (mem_keys_of_tableLookup hs) s hs).2) hw
    exact ⟨s', h1, by rw [h2, hlct]⟩
  · simpa using hcount

/-- Witness for the amended C7: a session idle for 10000 seconds against the
3600-second timeout is removed by the sweep. -/
theorem claim_idle_timeout_sweep_amended_witness :
    (([(str "s1", exampleSession (some 0))] : SessionTable).map (·.1)).Nodup ∧
    tableLookup (str "s1")
      (cleanup_stale_sessions exampleEnv
        [(str "s1", exampleSession (some 0))]).2 = none :=
  ⟨by decide,
   (claim_idle_timeout_sweep_amended exampleEnv
      [(str "s1", exampleSession (some 0))] (by decide)).2.1
    (str "s1") (exampleSession (some 0)) ⟨str "RUNNING", none, none⟩ 0
    rfl rfl (Or.inl rfl) rfl (by decide)⟩

end SlurmMcp

namespace SlurmMcp

/-! ## Partition merge lemmas (C3) -/

theorem mergePartition_name (e r : PartitionInfo) :
    (mergePartition e r).name = e.name := rfl

theorem mergePartition_total_nodes (e r : PartitionInfo) :
    (mergePartition e r).total_nodes = e.total_nodes + r.total_nodes := rfl

theorem mergePartition_available_nodes (e r : PartitionInfo) :
    (mergePartition e r).available_nodes
      = e.available_nodes + r.available_nodes := rfl

theorem mergePartition_total_cpus (e r : PartitionInfo) :
    (mergePartition e r).total_cpus = e.total_cpus + r.total_cpus := rfl

theorem mergePartition_available_cpus (e r : PartitionInfo) :
    (mergePartition e r).available_cpus = e.available_cpus + r.available_cpus := rfl

theorem mergePartition_total_gpus (e r : PartitionInfo) :
    (mergePartition e r).total_gpus = e.total_gpus + r.total_gpus := rfl

theorem mem_mergePartition_gpu_types (e r : PartitionInfo) (ty : Str) :
    ty ∈ (mergePartition e r).gpu_types ↔
      ty ∈ e.gpu_types ∨ ty ∈ r.gpu_types := by
  show ty ∈ (if r.gpu_types.isEmpty then e.gpu_types
      else (e.gpu_types ++ r.gpu_types).dedup) ↔ _
  by_cases hemp : r.gpu_types.isEmpty = true
  · rw [List.isEmpty_iff] at hemp
    simp [hemp]
  · rw [Bool.not_eq_true] at hemp
    simp [hemp, List.mem_dedup]

theorem foldl_mergePartition_spec :
    ∀ (rs : List PartitionInfo) (e : PartitionInfo),
      (rs.foldl mergePartition e).name = e.name ∧
      (rs.foldl mergePartition e).total_nodes
        = e.total_nodes + (rs.map (·.total_nodes)).sum ∧
      (rs.foldl mergePartition e).available_nodes
        = e.available_nodes + (rs.map (·.available_nodes)).sum ∧
      (rs.foldl mergePartition e).total_cpus
        = e.total_cpus + (rs.map (·.total_cpus)).sum ∧
      (rs.foldl mergePartition e).available_cpus
        = e.available_cpus + (rs.map (·.available_cpus)).sum ∧
      (rs.foldl mergePartition e).total_gpus
        = e.total_gpus + (rs.map (·.total_gpus)).sum ∧
      ∀ ty, ty ∈ (rs.foldl mergePartition e).gpu_types ↔
        (ty ∈ e.gpu_types ∨ ∃ r ∈ rs, ty ∈ r.gpu_types)
  | [], e => by simp
  | r :: rs, e => by
    obtain ⟨h1, h2, h3, h4, h5, h6, h7⟩ :=
      foldl_mergePartition_spec rs (mergePartition e r)
    rw [List.foldl_cons]
    refine ⟨by rw [h1, mergePartition_name], ?_, ?_, ?_, ?_, ?_, ?_⟩
    · rw [h2, mergePartition_total_nodes, List.map_cons, List.sum_cons]
      omega
    · rw [h3, mergePartition_available_nodes, List.map_cons, List.sum_cons]
      omega
    · rw [h4, mergePartition_total_cpus, List.map_cons, List.sum_cons]
      omega
    · rw [h5, mergePartition_available_cpus, List.map_cons, List.sum_cons]
      omega
    · rw [h6, mergePartition_total_gpus, List.map_cons, List.sum_cons]
      omega
    · intro ty
      rw [h7 ty, mem_mergePartition_gpu_types, List.exists_mem_cons_iff]
      tauto

theorem names_insertRow : ∀ (acc : List PartitionInfo) (row : PartitionInfo),
    (insertRow acc row).map (·.name)
      = if row.name ∈ acc.map (·.name) then acc.map (·.name)
        else acc.map (·.name) ++ [row.name]
  | [], row => by simp [insertRow]
  | e :: es, row => by
    by_cases he : e.name = row.name
    · simp [insertRow, he, mergePartition_name]
    · have hne : ¬ row.name = e.name := fun h => he h.symm
      rw [insertRow, if_neg he]
      by_cases hm : row.name ∈ es.map (·.name) <;>
        simp [names_insertRow es row, hm, hne]

theorem nodup_names_insertRow (acc : List PartitionInfo) (row : PartitionInfo)
    (h : (acc.map (·.name)).Nodup) :
    ((insertRow acc row).map (·.name)).Nodup := by
  rw [names_insertRow]
  by_cases hm : row.name ∈ acc.map (·.name)
  · simpa [hm] using h
  · rw [if_neg hm, List.nodup_append]
    refine ⟨h, List.nodup_singleton _, fun a ha hb => ?_⟩
    rw [List.mem_singleton] at hb
    subst hb
    exact hm ha

theorem nodup_names_foldl :
    ∀ (rows acc : List PartitionInfo), ((acc.map (·.name)).Nodup) →
      (((rows.foldl insertRow acc)).map (·.name)).Nodup
  | [], _, h => h
  | r :: rows, acc, h => by
    rw [List.foldl_cons]
    exact nodup_names_foldl rows _ (nodup_names_insertRow acc r h)

theorem find?_insertRow (n : Str) :
    ∀ (acc : List PartitionInfo) (row : PartitionInfo),
      (insertRow acc row).find? (fun x => x.name = n)
        = if row.name = n then
            mergeStep (acc.find? (fun x => x.name = n)) row
          else acc.find? (fun x => x.name = n)
  | [], row => by
    by_cases hr : row.name = n <;> simp [insertRow, List.find?, hr, mergeStep]
  | e :: es, row => by
    by_cases he : e.name = row.name
    · by_cases hn : e.name = n
      · have hr : row.name = n := he ▸ hn
        have hf1 : List.find? (fun x => decide (x.name = n))
            (mergePartition e row :: es) = some (mergePartition e row) :=
          List.find?_cons_of_pos _ (by simp [mergePartition_name, hn])
        have hf2 : List.find? (fun x => decide (x.name = n)) (e :: es)
            = some e := List.find?_cons_of_pos _ (by simp [hn])
        rw [insertRow, if_pos he, hf1, if_pos hr, hf2]
        rfl
      · have hr : ¬ row.name = n := fun h => hn (he.trans h)
        have hf1 : List.find? (fun x => decide (x.name = n))
            (mergePartition e row :: es)
            = List.find? (fun x => decide (x.name = n)) es :=
          List.find?_cons_of_neg _ (by simp [mergePartition_name, hn])
        have hf2 : List.find? (fun x => decide (x.name = n)) (e :: es)
            = List.find? (fun x => decide (x.name = n)) es :=
          List.find?_cons_of_neg _ (by simp [hn])
        rw [insertRow, if_pos he, hf1, if_neg hr, hf2]
    · by_cases hn : e.name = n
      · have hr : ¬ row.name = n := fun h => he (hn.trans h.symm)
        have hf1 : List.find? (fun x => decide (x.name = n))
            (e :: insertRow es row) = some e :=
          List.find?_cons_of_pos _ (by simp [hn])
        have hf2 : List.find? (fun x => decide (x.name = n)) (e :: es)
            = some e := List.find?_cons_of_pos _ (by simp [hn])
        rw [insertRow, if_neg he, hf1, if_neg hr, hf2]
      · have hf1 : List.find? (fun x => decide (x.name = n))
            (e :: insertRow es row)
            = List.find? (fun x => decide (x.name = n)) (insertRow es row) :=
          List.find?_cons_of_neg _ (by simp [hn])
        have hf2 : List.find? (fun x => decide (x.name = n)) (e :: es)
            = List.find? (fun x => decide (x.name = n)) es :=
          List.find?_cons_of_neg _ (by simp [hn])
        rw [insertRow, if_neg he, hf1, find?_insertRow n es row, hf2]

theorem find?_foldl_insertRow (n : Str) :
    ∀ (rows acc : List PartitionInfo),
      (rows.foldl insertRow acc).find? (fun x => x.name = n)
        = mergedLookup n (acc.find? (fun x => x.name = n)) rows
  | [], acc => by rw [List.foldl_nil, mergedLookup, List.filter_nil, List.foldl_nil]
  | r :: rows, acc => by
    rw [List.foldl_cons, find?_foldl_insertRow n rows (insertRow acc r),
      find?_insertRow n acc r]
    by_cases hr : r.name = n
    · rw [if_pos hr, mergedLookup, mergedLookup, List.filter_cons, if_pos (by simp [hr]),
        List.foldl_cons]
    · rw [if_neg hr, mergedLookup, mergedLookup, List.filter_cons, if_neg (by simp [hr])]

theorem foldl_mergeStep_some :
    ∀ (rs : List PartitionInfo) (e0 : PartitionInfo),
      rs.foldl mergeStep (some e0) = some (rs.foldl mergePartition e0)
  | [], _ => rfl
  | r :: rs, e0 => by
    rw [List.foldl_cons, List.foldl_cons]
    exact foldl_mergeStep_some rs (mergePartition e0 r)

theorem filter_name_eq_nil {l : List PartitionInfo} {n : Str}
    (h : n ∉ l.map (·.name)) : l.filter (fun x => x.name = n) = [] := by
  induction l with
  | nil => rfl
  | cons x xs ih =>
    simp only [List.map_cons, List.mem_cons, not_or] at h
    have hne : ¬ x.name = n := fun hh => h.1 hh.symm
    rw [List.filter_cons, if_neg (by simp [hne])]
    exact ih h.2

theorem filter_name_length_one :
    ∀ {l : List PartitionInfo}, ((l.map (·.name)).Nodup) →
      ∀ {e : PartitionInfo}, e ∈ l →
        (l.filter (fun x => x.name = e.name)).length = 1 := by
  intro l
  induction l with
  | nil => intro _ e he; cases he
  | cons x xs ih =>
    intro hnd e he
    obtain ⟨hx, hnd'⟩ := List.nodup_cons.mp hnd
    rcases List.mem_cons.mp he with rfl | hm
    · rw [List.filter_cons, if_pos (by simp), filter_name_eq_nil (by simpa using hx)]
      rfl
    · have hne : ¬ x.name = e.name := fun hh =>
        hx (by simpa [hh] using List.mem_map.mpr ⟨e, hm, rfl⟩)
      rw [List.filter_cons, if_neg (by simp [hne])]
      exact ih hnd' hm

theorem find?_eq_of_mem_nodup :
    ∀ {l : List PartitionInfo}, ((l.map (·.name)).Nodup) →
      ∀ {e : PartitionInfo}, e ∈ l →
        l.find? (fun x => x.name = e.name) = some e := by
  intro l
  induction l with
  | nil => intro _ e he; cases he
  | cons x xs ih =>
    intro hnd e he
    obtain ⟨hx, hnd'⟩ := List.nodup_cons.mp hnd
    rcases List.mem_cons.mp he with rfl | hm
    · exact List.find?_cons_of_pos _ (by simp)
    · have hne : ¬ x.name = e.name := fun hh =>
        hx (by simpa [hh] using List.mem_map.mpr ⟨e, hm, rfl⟩)
      rw [List.find?_cons_of_neg _ (by simp [hne])]
      exact ih hnd' hm

/-- C3: partition merge by summation.  Every parsed row's partition name has
exactly one entry in the parser's output, and that entry's `total_nodes`,
`available_nodes`, `total_cpus`, `available_cpus` and `total_gpus` are the
sums of the corresponding values of the rows carrying that name, while its
GPU-type list is the union of the rows' GPU-type sets. -/
theorem claim_partition_merge_by_summation (stdout : Str) :
    (∀ r ∈ parsePartitionRows stdout,
      ∃ e ∈ get_partitions stdout, e.name = r.name) ∧
    ∀ e ∈ get_partitions stdout,
      ((get_partitions stdout).filter (fun x => x.name = e.name)).length = 1 ∧
      e.total_nodes = (((parsePartitionRows stdout).filter
          (fun r => r.name = e.name)).map (·.total_nodes)).sum ∧
      e.available_nodes = (((parsePartitionRows stdout).filter
          (fun r => r.name = e.name)).map (·.available_nodes)).sum ∧
      e.total_cpus = (((parsePartitionRows stdout).filter
          (fun r => r.name = e.name)).map (·.total_cpus)).sum ∧
      e.available_cpus = (((parsePartitionRows stdout).filter
          (fun r => r.name = e.name)).map (·.available_cpus)).sum ∧
      e.total_gpus = (((parsePartitionRows stdout).filter
          (fun r => r.name = e.name)).map (·.total_gpus)).sum ∧
      ∀ ty, ty ∈ e.gpu_types ↔
        ∃ r ∈ (parsePartitionRows stdout).filter (fun r => r.name = e.name),
          ty ∈ r.gpu_types := by
  have hnd : ((get_partitions stdout).map (·.name)).Nodup :=
    nodup_names_foldl (parsePartitionRows stdout) [] (by simp)
  constructor
  · intro r hr
    have h1 : (get_partitions stdout).find? (fun x => x.name = r.name)
        = mergedLookup r.name none (parsePartitionRows stdout) :=
      find?_foldl_insertRow r.name (parsePartitionRows stdout) []
    have h2 : r ∈ (parsePartitionRows stdout).filter (fun x => x.name = r.name) :=
      List.mem_filter.mpr ⟨hr, by simp⟩
    rcases hflt : (parsePartitionRows stdout).filter (fun x => x.name = r.name)
      with _ | ⟨r0, rs⟩
    · rw [hflt] at h2
      cases h2
    · have h3 : mergedLookup r.name none (parsePartitionRows stdout)
          = some (rs.foldl mergePartition r0) := by
        rw [mergedLookup, hflt, List.foldl_cons]
        exact foldl_mergeStep_some rs r0
      rw [h3] at h1
      exact ⟨rs.foldl mergePartition r0, List.mem_of_find?_eq_some h1,
        by simpa using List.find?_some h1⟩
  · intro e he
    have h0 : (get_partitions stdout).find? (fun x => x.name = e.name)
        = mergedLookup e.name none (parsePartitionRows stdout) :=
      find?_foldl_insertRow e.name (parsePartitionRows stdout) []
    have h1 : mergedLookup e.name none (parsePartitionRows stdout) = some e := by
      rw [← h0]
      exact find?_eq_of_mem_nodup hnd he
    rcases hflt : (parsePartitionRows stdout).filter (fun x => x.name = e.name)
      with _ | ⟨r0, rs⟩
    · rw [mergedLookup, hflt] at h1
      cases h1
    · rw [mergedLookup, hflt, List.foldl_cons,
        show mergeStep none r0 = some r0 from rfl,
        foldl_mergeStep_some rs r0] at h1
      have h1' : rs.foldl mergePartition r0 = e := by injection h1
      obtain ⟨hn, ht1, ht2, ht3, ht4, ht5, hty⟩ := foldl_mergePartition_spec rs r0
      rw [h1'] at ht1 ht2 ht3 ht4 ht5 hty
      refine ⟨filter_name_length_one hnd he, ?_, ?_, ?_, ?_, ?_, ?_⟩
      · rw [hflt, List.map_cons, List.sum_cons, ht1]
      · rw [hflt, List.map_cons, List.sum_cons, ht2]
      · rw [hflt, List.map_cons, List.sum_cons, ht3]
      · rw [hflt, List.map_cons, List.sum_cons, ht4]
      · rw [hflt, List.map_cons, List.sum_cons, ht5]
      · intro ty
        rw [hflt, List.exists_mem_cons_iff, hty ty]

/-- Witness for C3 on the spec's two-row `gpu` example. -/
theorem claim_partition_merge_by_summation_witness :
    examplePartitionEntry ∈ get_partitions exampleSinfo ∧
    ((get_partitions exampleSinfo).filter
        (fun x => x.name = examplePartitionEntry.name)).length = 1 ∧
    examplePartitionEntry.total_nodes
      = (((parsePartitionRows exampleSinfo).filter
          (fun r => r.name = examplePartitionEntry.name)).map
            (·.total_nodes)).sum :=
  ⟨by decide,
   ((claim_partition_merge_by_summation exampleSinfo).2
      examplePartitionEntry (by decide)).1,
   ((claim_partition_merge_by_summation exampleSinfo).2
      examplePartitionEntry (by decide)).2.1⟩

end SlurmMcp
